import Mathlib

/-!
Shallow embedding of the blog backend (src/app.py): the relational data
model (User, Post, PostImage, Comment) and the request handlers that the
verified claims concern (register, login, get_posts, get_post_detail,
delete_post, update_post, delete_comment).

Modelling conventions:
* The database is a pure value (lists of rows plus autoincrement
  counters); a handler maps a database and a request to a status code and
  the database after the request.
* Client-supplied integers parsed by Flask converters
  (request.args.get(..., type=int) / request.form.get(..., type=int))
  are `Option Nat`: `none` models an absent or unparseable value.
* Password hashing (werkzeug generate_password_hash /
  check_password_hash) is external library code, declared out of scope by
  the spec; the handlers take the hash / check function as a parameter.
* The Cloudinary branch of smart_upload is environment-driven backend
  selection, declared out of scope by the spec; the local branch is
  modelled, with the per-call timestamp passed in as `now`.
* Physical file manipulation (file.save, remove_physical_file) is
  filesystem side effect with no bearing on any claim and is not
  modelled.
-/

namespace Blog

structure User where
  id : Nat
  username : String
  password : String
deriving Repr, DecidableEq

structure Post where
  id : Nat
  title : String
  content : String
  image_url : Option String
  user_id : Nat
  created_at : Nat
  updated_at : Nat
deriving Repr, DecidableEq

structure PostImage where
  id : Nat
  url : String
  post_id : Nat
deriving Repr, DecidableEq

structure Comment where
  id : Nat
  text : String
  user_id : Nat
  post_id : Nat
  created_at : Nat
deriving Repr, DecidableEq

/-- The database: one list of rows per table, plus autoincrement counters
for the ids handed to newly inserted rows. -/
structure DB where
  users : List User
  posts : List Post
  postImages : List PostImage
  comments : List Comment
  nextUserId : Nat
  nextImageId : Nat
deriving Repr, DecidableEq

/-- An uploaded multipart file. Werkzeug's FileStorage is falsy exactly
when its filename is empty, which is all smart_upload inspects. -/
structure UploadFile where
  filename : String
deriving Repr, DecidableEq

/-- werkzeug.utils.secure_filename: external library sanitisation of the
client-supplied name; modelled as the identity since no claim depends on
the sanitised spelling. -/
def secure_filename (s : String) : String := s

/-- smart_upload (src/app.py line 80): returns none for a missing file or
an empty filename, otherwise stores the file and returns its URL. Only
the local branch is modelled (the Cloudinary branch is environment-driven
backend selection, out of scope per the spec); `now` is the timestamp
prefix the code generates at the call. -/
def smart_upload (now : String) (f : UploadFile) : Option String :=
  if f.filename = "" then none
  else some ("/static/uploads/" ++ now ++ "_" ++ secure_filename f.filename)

/-- POST /api/register (src/app.py line 160). `hashFn` stands for
werkzeug's generate_password_hash. Returns the HTTP status and the
database after the request. -/
def register (hashFn : String → String) (db : DB) (username password : String) :
    Nat × DB :=
  match db.users.find? (fun u => u.username == username) with
  | some _ => (400, db)
  | none =>
      (201, { db with
              users := db.users ++
                [{ id := db.nextUserId, username := username,
                   password := hashFn password }],
              nextUserId := db.nextUserId + 1 })

/-- The JSON body of a login response: status plus, on success, the
user's id and username. -/
structure LoginResp where
  status : Nat
  user_id : Option Nat
  username : Option String
deriving Repr, DecidableEq

/-- POST /api/login (src/app.py line 174). `checkFn stored supplied`
stands for werkzeug's check_password_hash(stored, supplied). -/
def login (checkFn : String → String → Bool) (db : DB)
    (username password : String) : LoginResp :=
  match db.users.find? (fun u => u.username == username) with
  | some u =>
      if checkFn u.password password then
        { status := 200, user_id := some u.id, username := some u.username }
      else
        { status := 401, user_id := none, username := none }
  | none => { status := 401, user_id := none, username := none }

/-- SQL LIKE matching on (already case-folded) character lists:
`likeMatch pat s` is true when the pattern `pat` matches the whole string
`s`, with '%' matching any sequence of characters and '_' matching any
single character. '%' consumes an arbitrary span, i.e. the rest of the
pattern must match some suffix of the string. -/
def likeMatch : List Char → List Char → Bool
  | [], s => s.isEmpty
  | a :: p, s =>
      if a = '%' then s.tails.any (fun s2 => likeMatch p s2)
      else
        match s with
        | [] => false
        | c :: s2 => (a == '_' || a == c) && likeMatch p s2

/-- Case-fold a string to its list of lower-case characters. -/
def lowerL (s : String) : List Char := s.data.map Char.toLower

/-- `ilike s pat`: SQL's case-insensitive LIKE, `s ILIKE pat`. -/
def ilike (s pat : String) : Bool := likeMatch (lowerL pat) (lowerL s)

/-- The filter get_posts applies when a search term is present:
title ILIKE '%q%' OR content ILIKE '%q%'. -/
def postMatches (q : String) (p : Post) : Bool :=
  ilike p.title ("%" ++ q ++ "%") || ilike p.content ("%" ++ q ++ "%")

/-- The sort order of GET /api/posts: ORDER BY created_at DESC. -/
def newestFirst (a b : Post) : Prop := b.created_at ≤ a.created_at

instance : DecidableRel newestFirst :=
  fun a b => Nat.decLe b.created_at a.created_at

instance : IsTotal Post newestFirst :=
  ⟨fun a b => Nat.le_total b.created_at a.created_at⟩

instance : IsTrans Post newestFirst :=
  ⟨fun _ _ _ hab hbc => Nat.le_trans hbc hab⟩

/-- GET /api/posts (src/app.py line 203): optional filter by the search
term, then ORDER BY created_at DESC (modelled by a sort with that
order; SQL fixes no tie-break among equal keys). An empty `q` models
both an absent parameter and an explicit empty value (both are falsy in
the handler). The joinedload options are query-planning hints with no
semantic content. -/
def get_posts (db : DB) (q : String) : List Post :=
  let filtered := if q = "" then db.posts else db.posts.filter (postMatches q)
  List.insertionSort newestFirst filtered

/-- GET /api/posts/{id} (src/app.py line 227). get_or_404 raises
werkzeug's NotFound, a subclass of Exception, INSIDE the handler's
`except Exception` block — so a missing id is converted into a 500
response, not a 404. The body on success is the post (its to_dict
serialisation carries no further logic the claims concern). -/
def get_post_detail (db : DB) (post_id : Nat) : Nat × Option Post :=
  match db.posts.find? (fun p => p.id == post_id) with
  | none => (500, none)
  | some p => (200, some p)

/-- DELETE /api/posts/{id} (src/app.py line 285). The cascade="all,
delete-orphan" relationships on Post delete every PostImage and Comment
row whose post_id is the deleted post's id. -/
def delete_post (db : DB) (post_id : Nat) (user_id : Option Nat) : Nat × DB :=
  match db.posts.find? (fun p => p.id == post_id) with
  | none => (404, db)
  | some post =>
      if user_id = some post.user_id then
        (200, { db with
                posts := db.posts.filter (fun p => p.id != post_id),
                postImages := db.postImages.filter (fun i => i.post_id != post_id),
                comments := db.comments.filter (fun c => c.post_id != post_id) })
      else (403, db)

/-- Drop leading JSON whitespace (space, tab, line feed, carriage
return — exactly the characters RFC 8259 and Python's json allow between
tokens). -/
def skipWs : List Char → List Char
  | c :: cs =>
      if c = ' ' ∨ c = '\t' ∨ c = '\n' ∨ c = '\r' then skipWs cs else c :: cs
  | [] => []

/-- Numeric value of a digit string. -/
def digitsToNat (ds : List Char) : Nat :=
  ds.foldl (fun acc c => acc * 10 + (c.toNat - 48)) 0

/-- Split off a nonempty run of digits; none if the input does not start
with a digit. -/
def parseDigitRun (cs : List Char) : Option (List Char × List Char) :=
  let ds := cs.takeWhile Char.isDigit
  if ds.isEmpty then none else some (ds, cs.dropWhile Char.isDigit)

/-- The integer part of a JSON number: '0' standing alone, or a nonzero
digit followed by digits — JSON rejects leading zeros such as "01". -/
def parseIntPart : List Char → Option (Nat × List Char)
  | '0' :: cs2 =>
      match cs2 with
      | c :: _ => if c.isDigit then none else some (0, cs2)
      | [] => some (0, [])
  | cs =>
      match parseDigitRun cs with
      | none => none
      | some (ds, rest) => some (digitsToNat ds, rest)

/-- The optional fraction of a JSON number: '.' then at least one digit.
Returns the fraction digits' value, their count, and the rest. -/
def parseFrac : List Char → Option (Nat × Nat × List Char)
  | '.' :: cs2 =>
      match parseDigitRun cs2 with
      | none => none
      | some (ds, rest) => some (digitsToNat ds, ds.length, rest)
  | cs => some (0, 0, cs)

/-- The optional exponent of a JSON number: 'e'/'E', optional sign, at
least one digit. -/
def parseExp : List Char → Option (Int × List Char)
  | c :: cs2 =>
      if c = 'e' ∨ c = 'E' then
        match cs2 with
        | '+' :: cs3 =>
            match parseDigitRun cs3 with
            | none => none
            | some (ds, rest) => some ((digitsToNat ds : Int), rest)
        | '-' :: cs3 =>
            match parseDigitRun cs3 with
            | none => none
            | some (ds, rest) => some (-(digitsToNat ds : Int), rest)
        | _ =>
            match parseDigitRun cs2 with
            | none => none
            | some (ds, rest) => some ((digitsToNat ds : Int), rest)
      else some (0, c :: cs2)
  | [] => some (0, [])

/-- The exact integer value of a parsed JSON number, or none when the
number is not an integer. sign * (I.F) * 10^e with I the integer part, F
the fraction digits (flen many, value fval), e the exponent: 1.0 and 1e2
are the integers 1 and 100; 1.5 is no integer. -/
def numValue (neg : Bool) (ipart fval flen : Nat) (e : Int) : Option Int :=
  let D : Nat := ipart * 10 ^ flen + fval
  let diff : Int := e - (flen : Int)
  let mag : Option Nat :=
    if 0 ≤ diff then some (D * 10 ^ diff.toNat)
    else if D % 10 ^ (-diff).toNat = 0 then some (D / 10 ^ (-diff).toNat)
    else none
  match mag with
  | none => none
  | some m => some (if neg then -(m : Int) else (m : Int))

/-- One JSON number: optional '-', integer part without leading zeros,
optional fraction, optional exponent. Yields its exact integer value
(none when non-integral) and the remaining input. -/
def parseNumber (cs : List Char) : Option (Option Int × List Char) :=
  let signed : Bool × List Char :=
    match cs with
    | '-' :: rest => (true, rest)
    | _ => (false, cs)
  match parseIntPart signed.snd with
  | none => none
  | some (ipart, cs2) =>
      match parseFrac cs2 with
      | none => none
      | some (fval, flen, cs3) =>
          match parseExp cs3 with
          | none => none
          | some (e, cs4) => some (numValue signed.fst ipart fval flen e, cs4)

/-- Comma-separated JSON numbers up to the closing bracket; fuelled by
the input length. -/
def parseArrayAux : Nat → List Char → Option (List (Option Int))
  | 0, _ => none
  | fuel + 1, cs =>
      match parseNumber (skipWs cs) with
      | none => none
      | some (v, cs2) =>
          match skipWs cs2 with
          | ',' :: cs3 =>
              match parseArrayAux fuel cs3 with
              | some vs => some (v :: vs)
              | none => none
          | ']' :: cs3 => if (skipWs cs3).isEmpty then some [v] else none
          | _ => none

/-- Models json.loads at src/app.py line 325 on arrays of JSON numbers —
the only payload family on which this code path can delete anything.
Each element is kept as its exact integer value (none when non-integral):
SQL's numeric IN matches 1.0 with id 1, while non-integral or negative
values match no id. `none` models every other payload: malformed JSON
raises json.JSONDecodeError and non-number-array payloads either raise
when fed to PostImage.id.in_ or compare unequal to every integer id —
in all those cases the surrounding try/except swallows the error and no
gallery row is deleted, observationally the `none` branch here. -/
def parseIdList (s : String) : Option (List (Option Int)) :=
  match skipWs s.data with
  | '[' :: cs =>
      match skipWs cs with
      | ']' :: cs2 => if (skipWs cs2).isEmpty then some [] else none
      | _ => parseArrayAux (s.length + 1) cs
  | _ => none

/-- The form fields and files of a PUT /api/posts/{id} request. `none`
models an absent field/file. `images = some fs` models 'images' being
present in request.files with getlist returning `fs`. -/
structure UpdateReq where
  user_id : Option Nat
  title : Option String
  content : Option String
  delete_cover : Option String
  image : Option UploadFile
  delete_image_ids : Option String
  images : Option (List UploadFile)
deriving Repr, DecidableEq

/-- Append the successfully uploaded gallery files as new PostImage rows
(src/app.py lines 346-351), threading the autoincrement counter. -/
def addGallery (now : String) (post_id : Nat) :
    List UploadFile → List PostImage × Nat → List PostImage × Nat
  | [], acc => acc
  | f :: fs, (imgs, nid) =>
      match smart_upload now f with
      | none => addGallery now post_id fs (imgs, nid)
      | some url =>
          addGallery now post_id fs
            (imgs ++ [{ id := nid, url := url, post_id := post_id }], nid + 1)

/-- The cover image after update_post's steps 2a/2b (src/app.py lines
311-318): delete_cover='true' clears image_url, then a present cover
file with a nonempty filename overwrites it with the upload's result. -/
def coverAfter (now : String) (post : Post) (req : UpdateReq) : Option String :=
  let u1 := if req.delete_cover = some "true" then none else post.image_url
  match req.image with
  | some f => if f.filename ≠ "" then smart_upload now f else u1
  | none => u1

/-- The PostImage table after update_post's step 3 (src/app.py lines
322-343): parse delete_image_ids and remove the listed images belonging
to this post. A parse (or in-step) exception is caught by the inner
try/except and swallowed — the table is left as it was. The emptiness
test mirrors Python's `if delete_image_ids:` on the parsed list; an
image is listed when some parsed number equals its id numerically. -/
def imagesAfter (db : DB) (post : Post) (req : UpdateReq) : List PostImage :=
  match parseIdList (req.delete_image_ids.getD "[]") with
  | none => db.postImages
  | some ids =>
      if ids.isEmpty then db.postImages
      else db.postImages.filter
        (fun i => !(ids.contains (some (i.id : Int)) && i.post_id == post.id))

/-- Steps 3 then 4: gallery deletion followed by gallery addition,
returning the new table and the advanced autoincrement counter. -/
def galleryAfter (now : String) (db : DB) (post : Post) (req : UpdateReq) :
    List PostImage × Nat :=
  match req.images with
  | none => (imagesAfter db post req, db.nextImageId)
  | some fs => addGallery now post.id fs (imagesAfter db post req, db.nextImageId)

/-- The post row as staged by update_post's steps 1 and 2. The onupdate
refresh of updated_at is not modelled (no claim mentions updated_at). -/
def updatedPost (now : String) (post : Post) (req : UpdateReq) : Post :=
  { post with
    title := req.title.getD post.title,
    content := req.content.getD post.content,
    image_url := coverAfter now post req }

/-- The database state staged in the session just before update_post's
commit. -/
def stagedDB (now : String) (db : DB) (post_id : Nat) (req : UpdateReq)
    (post : Post) : DB :=
  { db with
    posts := db.posts.map
      (fun p => if p.id == post_id then updatedPost now post req else p),
    postImages := (galleryAfter now db post req).fst,
    nextImageId := (galleryAfter now db post req).snd }

/-- PUT /api/posts/{id} (src/app.py line 296). All mutations are staged
in the session and applied by the single commit at the end; `commitOk`
is the oracle for whether that commit raises (false = raise, in which
case the handler rolls back and answers 500). remove_physical_file is a
filesystem side effect, not modelled. -/
def update_post (now : String) (db : DB) (post_id : Nat) (req : UpdateReq)
    (commitOk : Bool) : Nat × DB :=
  match db.posts.find? (fun p => p.id == post_id) with
  | none => (404, db)
  | some post =>
      if req.user_id = some post.user_id then
        if commitOk then (200, stagedDB now db post_id req post)
        else (500, db)
      else (403, db)

/-- DELETE /api/comments/{id} (src/app.py line 368). `user_id in
[comment.user_id, comment.post.user_id]`: a missing/unparseable user_id
is Python None, which is in the list only if it equals one of the two
non-null owner ids, i.e. never. comment.post is resolved through the
foreign key; the repository's referential integrity makes it exist (a
dangling post_id would raise an AttributeError, answered as 500). -/
def delete_comment (db : DB) (comment_id : Nat) (user_id : Option Nat) :
    Nat × DB :=
  match db.comments.find? (fun c => c.id == comment_id) with
  | none => (404, db)
  | some c =>
      match db.posts.find? (fun p => p.id == c.post_id) with
      | none => (500, db)
      | some post =>
          if user_id = some c.user_id ∨ user_id = some post.user_id then
            (200, { db with
                    comments := db.comments.filter (fun x => x.id != comment_id) })
          else (403, db)

/-! Concrete example rows used by witnesses and counterexamples. -/

def aliceU : User :=
  { id := 1, username := "alice", password := "h$secret" }

def post1 : Post :=
  { id := 1, title := "Trip", content := "notes", image_url := some "/static/uploads/old.png",
    user_id := 1, created_at := 10, updated_at := 10 }

def img1 : PostImage := { id := 1, url := "/static/uploads/g.png", post_id := 1 }

def com1 : Comment := { id := 1, text := "hi", user_id := 2, post_id := 1, created_at := 11 }

def db1 : DB :=
  { users := [aliceU], posts := [post1], postImages := [img1], comments := [com1],
    nextUserId := 3, nextImageId := 2 }

/-- C1: the spec claims GET /api/posts/{id} answers 404 for a missing id,
but get_or_404 raises werkzeug NotFound — an Exception subclass — inside
the handler's own `except Exception` block, which answers 500. Post id 42
does not exist in db1, yet the handler returns 500, not 404. -/
theorem get_post_detail_missing_is_500 :
    get_post_detail db1 42 = (500, none) ∧ (get_post_detail db1 42).fst ≠ 404 := by
  decide

/-- C3: deleting an existing Post as its owner succeeds and leaves no
PostImage row and no Comment row referencing the deleted id, and the Post
itself is gone. -/
theorem delete_post_cascade (db : DB) (post_id : Nat) (post : Post)
    (hfind : db.posts.find? (fun p => p.id == post_id) = some post) :
    (delete_post db post_id (some post.user_id)).fst = 200 ∧
    (delete_post db post_id (some post.user_id)).snd.posts.find?
      (fun p => p.id == post_id) = none ∧
    (delete_post db post_id (some post.user_id)).snd.postImages.filter
      (fun i => i.post_id == post_id) = [] ∧
    (delete_post db post_id (some post.user_id)).snd.comments.filter
      (fun c => c.post_id == post_id) = [] := by
  unfold delete_post
  rw [hfind]
  simp [List.find?_eq_none, List.mem_filter, List.filter_filter]

/-- Witness for C3 on db1: post 1 has one image and one comment; the
owner's delete leaves none referencing id 1. -/
theorem delete_post_cascade_witness :
    (delete_post db1 1 (some post1.user_id)).fst = 200 ∧
    (delete_post db1 1 (some post1.user_id)).snd.posts.find?
      (fun p => p.id == 1) = none ∧
    (delete_post db1 1 (some post1.user_id)).snd.postImages.filter
      (fun i => i.post_id == 1) = [] ∧
    (delete_post db1 1 (some post1.user_id)).snd.comments.filter
      (fun c => c.post_id == 1) = [] :=
  delete_post_cascade db1 1 post1 (by decide)

/-- C4: updatePost with a supplied user_id different from the owner's
answers 403 and leaves the whole database — in particular the Post and
its PostImage rows — unchanged. -/
theorem update_post_forbidden (now : String) (db : DB) (post_id : Nat)
    (req : UpdateReq) (commitOk : Bool) (post : Post) (uid : Nat)
    (hfind : db.posts.find? (fun p => p.id == post_id) = some post)
    (hsup : req.user_id = some uid) (hne : uid ≠ post.user_id) :
    update_post now db post_id req commitOk = (403, db) := by
  unfold update_post
  rw [hfind]
  simp [hsup, hne]

/-- Witness for C4: user 2 tries to update alice's post 1 and is
refused, with db1 unchanged. -/
theorem update_post_forbidden_witness :
    update_post "t" db1 1
      { user_id := some 2, title := some "X", content := none,
        delete_cover := none, image := none, delete_image_ids := none,
        images := none } true = (403, db1) :=
  update_post_forbidden "t" db1 1
    { user_id := some 2, title := some "X", content := none,
      delete_cover := none, image := none, delete_image_ids := none,
      images := none } true post1 2 (by decide) (by decide) (by decide)

/-- C5: for an existing Comment with an existing parent Post,
deleteComment succeeds (200, comment removed) when the supplied user_id
equals the comment author's or the post owner's id, and in every other
case answers 403 with the database unchanged. -/
theorem delete_comment_auth (db : DB) (comment_id : Nat) (c : Comment)
    (post : Post) (user_id : Option Nat)
    (hc : db.comments.find? (fun x => x.id == comment_id) = some c)
    (hp : db.posts.find? (fun p => p.id == c.post_id) = some post) :
    (user_id = some c.user_id ∨ user_id = some post.user_id →
      (delete_comment db comment_id user_id).fst = 200 ∧
      (delete_comment db comment_id user_id).snd.comments.filter
        (fun x => x.id == comment_id) = []) ∧
    (¬(user_id = some c.user_id ∨ user_id = some post.user_id) →
      delete_comment db comment_id user_id = (403, db)) := by
  unfold delete_comment
  rw [hc]; dsimp only; rw [hp]
  constructor
  · intro hok
    simp [hok, List.filter_filter]
  · intro hno
    simp [hno]

/-- Witness for C5: user 1 owns post 1 but did not write comment 1
(author is user 2); the post-owner path still deletes it. -/
theorem delete_comment_auth_witness :
    (delete_comment db1 1 (some 1)).fst = 200 ∧
    (delete_comment db1 1 (some 1)).snd.comments.filter
      (fun x => x.id == 1) = [] :=
  (delete_comment_auth db1 1 com1 post1 (some 1) (by decide) (by decide)).1
    (Or.inr (by decide))

/-- C9: a deleteComment request with no parseable user_id (Python None)
is never authorized — None equals neither non-null owner id — so it
answers 403 and changes nothing. -/
theorem delete_comment_missing_uid (db : DB) (comment_id : Nat) (c : Comment)
    (post : Post)
    (hc : db.comments.find? (fun x => x.id == comment_id) = some c)
    (hp : db.posts.find? (fun p => p.id == c.post_id) = some post) :
    delete_comment db comment_id none = (403, db) := by
  unfold delete_comment
  rw [hc]; dsimp only; rw [hp]
  simp

/-- Witness for C9 on db1. -/
theorem delete_comment_missing_uid_witness :
    delete_comment db1 1 none = (403, db1) :=
  delete_comment_missing_uid db1 1 com1 post1 (by decide) (by decide)

/-- C6: registering an already-taken username answers 400 and leaves the
database — in particular the original user's stored hash — unchanged; a
fresh username appends exactly one user whose stored password is the
hash of the supplied password, and (the hash differing from the
plaintext) no user matching that username stores the plaintext. -/
theorem register_spec (hashFn : String → String) (db : DB)
    (username password : String)
    (hh : hashFn password ≠ password) :
    ((∃ u ∈ db.users, u.username = username) →
      register hashFn db username password = (400, db)) ∧
    ((∀ u ∈ db.users, u.username ≠ username) →
      (register hashFn db username password).fst = 201 ∧
      (register hashFn db username password).snd.users =
        db.users ++ [{ id := db.nextUserId, username := username,
                       password := hashFn password }] ∧
      ∀ u ∈ (register hashFn db username password).snd.users,
        u.username = username → u.password ≠ password) := by
  unfold register
  cases hfind : db.users.find? (fun u => u.username == username) with
  | some u =>
      refine ⟨fun _ => rfl, fun hnone => absurd ?_ (hnone u (List.mem_of_find?_eq_some hfind))⟩
      have := List.find?_some hfind
      simpa using this
  | none =>
      rw [List.find?_eq_none] at hfind
      constructor
      · rintro ⟨u, hu, hname⟩
        exact absurd (by simpa using hname) (hfind u hu)
      · intro _
        refine ⟨rfl, rfl, ?_⟩
        intro u hu hname
        simp only [List.mem_append, List.mem_singleton] at hu
        rcases hu with hu | hu
        · exact absurd (by simpa using hname) (hfind u hu)
        · rw [hu]
          exact hh

/-- Witness for C6: registering "bob" against db1 (which has only
"alice") succeeds with status 201. -/
theorem register_spec_witness :
    (register (fun s => "h$" ++ s) db1 "bob" "pw").fst = 201 :=
  ((register_spec (fun s => "h$" ++ s) db1 "bob" "pw" (by decide)).2
    (by decide)).1

/-- C7: assuming the database's username-uniqueness invariant, login
answers 200 exactly when a stored user has the supplied username and the
hash check accepts the supplied password against that user's stored
hash; on success the response carries that user's id and username, and
in every other case the handler answers exactly 401 Unauthorized with no
identity in the body. -/
theorem login_spec (checkFn : String → String → Bool) (db : DB)
    (username password : String)
    (huniq : db.users.Pairwise (fun a b => a.username ≠ b.username)) :
    ((login checkFn db username password).status = 200 ↔
      ∃ u ∈ db.users, u.username = username ∧ checkFn u.password password = true) ∧
    (∀ u ∈ db.users, u.username = username → checkFn u.password password = true →
      login checkFn db username password =
        { status := 200, user_id := some u.id, username := some u.username }) ∧
    ((¬∃ u ∈ db.users, u.username = username ∧ checkFn u.password password = true) →
      login checkFn db username password =
        { status := 401, user_id := none, username := none }) := by
  have hsymm : Symmetric (fun a b : User => a.username ≠ b.username) :=
    fun _ _ h h2 => h h2.symm
  have huniq2 : ∀ u ∈ db.users, ∀ v ∈ db.users, u.username = v.username → u = v := by
    intro u hu v hv he
    by_contra hne
    exact List.Pairwise.forall hsymm huniq hu hv hne he
  unfold login
  cases hfind : db.users.find? (fun u => u.username == username) with
  | none =>
      rw [List.find?_eq_none] at hfind
      dsimp only
      refine ⟨⟨fun h => ?_, ?_⟩, ?_, fun _ => ?_⟩
      · simp at h
      · rintro ⟨u, hu, hname, -⟩
        exact absurd (by simpa using hname) (hfind u hu)
      · intro u hu hname _
        exact absurd (by simpa using hname) (hfind u hu)
      · trivial
  | some u0 =>
      have hu0 : u0 ∈ db.users := List.mem_of_find?_eq_some hfind
      have hname0 : u0.username = username := by
        have := List.find?_some hfind
        simpa using this
      dsimp only
      cases hcheck : checkFn u0.password password with
      | true =>
          simp only [hcheck, if_true]
          refine ⟨⟨fun _ => ⟨u0, hu0, hname0, hcheck⟩, fun _ => ?_⟩, ?_, ?_⟩
          · trivial
          · intro u hu hname _
            have he : u = u0 := huniq2 u hu u0 hu0 (hname.trans hname0.symm)
            rw [he]
          · intro hno
            exact absurd ⟨u0, hu0, hname0, hcheck⟩ hno
      | false =>
          simp only [hcheck, Bool.false_eq_true, if_false]
          refine ⟨⟨fun h => ?_, ?_⟩, ?_, fun _ => by trivial⟩
          · simp at h
          · rintro ⟨u, hu, hname, hc⟩
            have he : u = u0 := huniq2 u hu u0 hu0 (hname.trans hname0.symm)
            rw [he] at hc
            rw [hc] at hcheck
            exact absurd hcheck (by simp)
          · intro u hu hname hc
            have he : u = u0 := huniq2 u hu u0 hu0 (hname.trans hname0.symm)
            rw [he] at hc
            rw [hc] at hcheck
            exact absurd hcheck (by simp)

/-- Witness for C7: with a check function accepting exactly the stored
"h$secret" against "secret", alice's login succeeds and returns her id
and username; the same check against a wrong password answers exactly
401 with no identity. -/
theorem login_spec_witness :
    login (fun stored supplied => stored == "h$" ++ supplied) db1
        "alice" "secret" =
      { status := 200, user_id := some 1, username := some "alice" } ∧
    login (fun stored supplied => stored == "h$" ++ supplied) db1
        "alice" "wrong" =
      { status := 401, user_id := none, username := none } := by
  constructor
  · exact (login_spec (fun stored supplied => stored == "h$" ++ supplied) db1
      "alice" "secret" (by decide)).2.1 aliceU (by decide) (by decide) (by decide)
  · exact (login_spec (fun stored supplied => stored == "h$" ++ supplied) db1
      "alice" "wrong" (by decide)).2.2 (by decide)

/-- C10: when the owner's updatePost request carries both
delete_cover='true' and a cover file with a nonempty filename, the
delete branch runs first and the upload branch then overwrites
image_url; the surviving post's image_url is the freshly uploaded
file's URL. -/
theorem update_post_cover_replaced (now : String) (db : DB) (post_id : Nat)
    (req : UpdateReq) (post : Post) (f : UploadFile)
    (hfind : db.posts.find? (fun p => p.id == post_id) = some post)
    (hown : req.user_id = some post.user_id)
    (_hdel : req.delete_cover = some "true")
    (himg : req.image = some f)
    (hfn : f.filename ≠ "") :
    (update_post now db post_id req true).fst = 200 ∧
    smart_upload now f =
      some ("/static/uploads/" ++ now ++ "_" ++ secure_filename f.filename) ∧
    ∀ p ∈ (update_post now db post_id req true).snd.posts,
      p.id = post_id → p.image_url = smart_upload now f := by
  have hcover : coverAfter now post req = smart_upload now f := by
    unfold coverAfter
    rw [himg]
    dsimp only
    rw [if_pos hfn]
  unfold update_post
  rw [hfind]
  dsimp only
  rw [hown, if_pos rfl, if_pos rfl]
  refine ⟨rfl, by simp [smart_upload, hfn], ?_⟩
  intro p hp hpid
  simp only [stagedDB, List.mem_map] at hp
  obtain ⟨q, hq, hpq⟩ := hp
  by_cases hq2 : (q.id == post_id) = true
  · rw [if_pos hq2] at hpq
    rw [← hpq]
    simp [updatedPost, hcover]
  · rw [if_neg hq2] at hpq
    rw [← hpq] at hpid
    exact absurd (by simpa using hpid) hq2

/-- Witness for C10 on db1: deleting and replacing the cover in one
request ends with the new upload's URL as the cover. -/
theorem update_post_cover_replaced_witness :
    (update_post "t" db1 1
      { user_id := some 1, title := none, content := none,
        delete_cover := some "true", image := some { filename := "new.png" },
        delete_image_ids := none, images := none } true).fst = 200 ∧
    smart_upload "t" { filename := "new.png" } =
      some "/static/uploads/t_new.png" := by
  have h := update_post_cover_replaced "t" db1 1
    { user_id := some 1, title := none, content := none,
      delete_cover := some "true", image := some { filename := "new.png" },
      delete_image_ids := none, images := none } post1 { filename := "new.png" }
    (by decide) (by decide) (by decide) (by decide) (by decide)
  exact ⟨h.1, h.2.1⟩

/-- parseIdList agrees with json.loads on the delicate cases: JSON
whitespace inside the array, leading zeros rejected, 1.0 and 1e2 being
the integers 1 and 100 (which SQL's numeric IN matches against ids),
negative and non-integral members parsing but matching no id, and
non-JSON input failing. -/
theorem parseIdList_fidelity :
    parseIdList "[\n1]" = some [some 1] ∧
    parseIdList "[ 1 ,\t2 ]" = some [some 1, some 2] ∧
    parseIdList "[01]" = none ∧
    parseIdList "[1.0]" = some [some 1] ∧
    parseIdList "[1e2]" = some [some 100] ∧
    parseIdList "[-1]" = some [some (-1)] ∧
    parseIdList "[1.5]" = some [none] ∧
    parseIdList "[]" = some [] ∧
    parseIdList "[1,]" = none ∧
    parseIdList "oops" = none := by
  decide

/-! ### Search semantics (claim C8)

The spec characterises the search as case-insensitive substring
containment. The definitions below follow the spec's words — substring
containment on case-folded characters — and are compared against the
code's actual ILIKE pattern matching. -/

/-- `isPrefixCL t s`: the character list `t` is a prefix of `s`. -/
def isPrefixCL : List Char → List Char → Bool
  | [], _ => true
  | _ :: _, [] => false
  | a :: t, c :: s => a == c && isPrefixCL t s

/-- `isSubCL t s`: the character list `t` occurs contiguously in `s`. -/
def isSubCL : List Char → List Char → Bool
  | t, [] => t.isEmpty
  | t, c :: s => isPrefixCL t (c :: s) || isSubCL t s

/-- Modelled from the spec's words: `containsCI s term` is true when `s`
contains `term` as a case-insensitive substring. -/
def containsCI (s term : String) : Bool := isSubCL (lowerL term) (lowerL s)

/-- The search term is free of SQL LIKE wildcard characters, stated on
its case-folded form (case folding fixes both '%' and '_'). -/
def noWildcards (q : String) : Prop := '%' ∉ lowerL q ∧ '_' ∉ lowerL q

lemma isPrefixCL_nil_right (t : List Char) : isPrefixCL t [] = t.isEmpty := by
  cases t <;> rfl

lemma isPrefixCL_iff (t : List Char) : ∀ s, isPrefixCL t s = true ↔ ∃ u, s = t ++ u := by
  induction t with
  | nil => intro s; simp [isPrefixCL]
  | cons a t ih =>
      intro s
      cases s with
      | nil => simp [isPrefixCL]
      | cons c s2 =>
          simp only [isPrefixCL, Bool.and_eq_true, beq_iff_eq, ih]
          constructor
          · rintro ⟨rfl, u, rfl⟩
            exact ⟨u, rfl⟩
          · rintro ⟨u, hu⟩
            rw [List.cons_append] at hu
            injection hu with h1 h2
            exact ⟨h1.symm, u, h2⟩

lemma isSubCL_iff (t : List Char) : ∀ s, isSubCL t s = true ↔ ∃ u v, s = u ++ t ++ v := by
  intro s
  induction s with
  | nil =>
      simp only [isSubCL, List.isEmpty_iff]
      constructor
      · rintro rfl
        exact ⟨[], [], rfl⟩
      · rintro ⟨u, v, h⟩
        rcases List.append_eq_nil.mp h.symm with ⟨h1, h2⟩
        exact (List.append_eq_nil.mp h1).2
  | cons c s2 ih =>
      simp only [isSubCL, Bool.or_eq_true, isPrefixCL_iff, ih]
      constructor
      · rintro (⟨u, h⟩ | ⟨u, v, rfl⟩)
        · exact ⟨[], u, by simpa using h⟩
        · exact ⟨c :: u, v, rfl⟩
      · rintro ⟨u, v, h⟩
        cases u with
        | nil =>
            left
            rw [List.nil_append] at h
            exact ⟨v, h⟩
        | cons c2 u2 =>
            right
            rw [List.cons_append, List.cons_append] at h
            injection h with h1 h2
            exact ⟨u2, v, h2⟩

/-- `containsCI` agrees with the literal "substring of the case-folded
text" reading of the spec. -/
lemma containsCI_iff (s term : String) :
    containsCI s term = true ↔ ∃ u v, lowerL s = u ++ lowerL term ++ v :=
  isSubCL_iff (lowerL term) (lowerL s)

lemma likeMatch_pct_any (s : List Char) : likeMatch ['%'] s = true := by
  unfold likeMatch
  rw [if_pos rfl]
  rw [List.any_eq_true]
  refine ⟨[], ?_, rfl⟩
  rw [List.mem_tails]
  exact List.nil_suffix

/-- A wildcard-free pattern followed by '%' matches exactly the strings
it prefixes. -/
lemma likeMatch_prefix_pat (t : List Char) (hp : '%' ∉ t) (hu : '_' ∉ t) :
    ∀ s, likeMatch (t ++ ['%']) s = isPrefixCL t s := by
  induction t with
  | nil =>
      intro s
      simpa [isPrefixCL] using likeMatch_pct_any s
  | cons a t ih =>
      have ha1 : ¬(a = '%') := fun h => hp (by rw [h]; exact List.mem_cons_self _ _)
      have ha2 : ¬(a = '_') := fun h => hu (by rw [h]; exact List.mem_cons_self _ _)
      have hp2 : '%' ∉ t := fun h => hp (List.mem_cons_of_mem _ h)
      have hu2 : '_' ∉ t := fun h => hu (List.mem_cons_of_mem _ h)
      intro s
      cases s with
      | nil =>
          rw [List.cons_append]
          unfold likeMatch
          rw [if_neg ha1]
          rfl
      | cons c s2 =>
          rw [List.cons_append]
          unfold likeMatch
          rw [if_neg ha1]
          dsimp only
          rw [ih hp2 hu2 s2]
          have hbeq : (a == '_') = false := by
            simpa using ha2
          simp [isPrefixCL, hbeq]

/-- Scanning every suffix for a prefix occurrence is exactly substring
search. -/
lemma tails_any_isSub (t : List Char) :
    ∀ s : List Char, (s.tails.any fun s2 => isPrefixCL t s2) = isSubCL t s := by
  intro s
  induction s with
  | nil =>
      simp [isSubCL, isPrefixCL_nil_right]
  | cons c s2 ih =>
      rw [List.tails_cons, List.any_cons, ih]
      rfl

/-- '%' ++ wildcard-free term ++ '%' — the exact pattern get_posts
builds — matches exactly the strings containing the term. -/
lemma likeMatch_sub_pat (t : List Char) (hp : '%' ∉ t) (hu : '_' ∉ t)
    (s : List Char) : likeMatch ('%' :: (t ++ ['%'])) s = isSubCL t s := by
  unfold likeMatch
  rw [if_pos rfl]
  have hfun : (fun s2 => likeMatch (t ++ ['%']) s2) =
      fun s2 => isPrefixCL t s2 := funext (likeMatch_prefix_pat t hp hu)
  rw [hfun, tails_any_isSub t s]

lemma lowerL_pat (q : String) :
    lowerL ("%" ++ q ++ "%") = '%' :: (lowerL q ++ ['%']) := by
  unfold lowerL
  rw [show ("%" ++ q ++ "%").data = '%' :: (q.data ++ ['%']) from by
    simp [String.data_append]]
  simp

def post2 : Post :=
  { id := 2, title := "ab", content := "cd", image_url := none,
    user_id := 1, created_at := 20, updated_at := 20 }

def db2 : DB :=
  { users := [aliceU], posts := [post2], postImages := [], comments := [],
    nextUserId := 2, nextImageId := 1 }

/-- C8 counterexample: the search term "_" is an SQL LIKE wildcard, so
ILIKE '%_%' matches the post titled "ab" with content "cd" even though
neither contains "_" as a (case-insensitive) substring — the code does
not return "exactly the posts whose title or content contains the term
as a case-insensitive substring". -/
theorem get_posts_wildcard_counterexample :
    get_posts db2 "_" = [post2] ∧
    containsCI post2.title "_" = false ∧
    containsCI post2.content "_" = false := by
  decide

/-- C8 (amended): get_posts returns exactly (a permutation of) the posts
whose title or content matches the term as a case-insensitive SQL LIKE
substring pattern — '%' matching any span and '_' any single character —
ordered by created_at descending, all posts when the term is empty; for
terms free of the two wildcard characters the match coincides with
case-insensitive substring containment. -/
theorem get_posts_spec (db : DB) (q : String) :
    (get_posts db q).Perm
      (db.posts.filter (fun p => q == "" || postMatches q p)) ∧
    (get_posts db q).Pairwise (fun a b => b.created_at ≤ a.created_at) ∧
    (noWildcards q → ∀ p : Post,
      postMatches q p = (containsCI p.title q || containsCI p.content q)) := by
  refine ⟨?_, ?_, ?_⟩
  · unfold get_posts
    by_cases hq : q = ""
    · subst hq
      have hfil : db.posts.filter
          (fun p => (("" : String) == "") || postMatches "" p) = db.posts := by
        simp
      rw [if_pos rfl, hfil]
      exact List.perm_insertionSort newestFirst db.posts
    · have hbe : (q == "") = false := by simp [hq]
      have hfil : db.posts.filter (fun p => (q == "") || postMatches q p) =
          db.posts.filter (postMatches q) := by
        simp [hbe]
      rw [if_neg hq, hfil]
      exact List.perm_insertionSort newestFirst _
  · unfold get_posts
    exact List.sorted_insertionSort newestFirst _
  · intro hq p
    unfold postMatches ilike
    rw [lowerL_pat q, likeMatch_sub_pat (lowerL q) hq.1 hq.2,
        likeMatch_sub_pat (lowerL q) hq.1 hq.2]
    rfl

/-- Witness for C8 (amended) at a concrete database and term. -/
theorem get_posts_spec_witness :
    (get_posts db2 "ab").Perm
      (db2.posts.filter (fun p => ("ab" : String) == "" || postMatches "ab" p)) :=
  (get_posts_spec db2 "ab").1

end Blog
